import Mathlib

/-!
Verification of the gesture-to-road-geometry pipeline
(`calculate_prototypes` in `src/game/transport/transport_planning_new/mod.rs`).

The pipeline is embedded shallowly over exact rational coordinates.  The
geometry primitives of the external `descartes` library (orthogonal shifting,
polygon clipping, path/outline intersection, subsections, containment tests,
norms) are not part of this repository; they are modelled as the fields of an
abstract `Geom` structure, so every theorem below is proved for an arbitrary
implementation of the geometry library.  Where a claim depends on a concrete
behaviour of a missing primitive, that behaviour is pinned down from the
specification and marked `Modelled from the spec:` in the doc comment.
-/

/-- 2D points: exact rational coordinates stand in for the `f32` pairs `P2`. -/
abbrev P2 : Type := ℚ × ℚ

/-- 2D vectors `V2`. -/
abbrev V2 : Type := ℚ × ℚ

def zeroP : P2 := (0, 0)

/-- `a - b` on points, giving a vector (componentwise, as in `descartes`). -/
def psub (a b : P2) : V2 := (a.1 - b.1, a.2 - b.2)

/-- `p + v` on a point and a vector. -/
def padd (a : P2) (v : V2) : P2 := (a.1 + v.1, a.2 + v.2)

/-- `p - v` on a point and a vector. -/
def psubv (a : P2) (v : V2) : P2 := (a.1 - v.1, a.2 - v.2)

/-- Scalar times vector, for `direction * distance`. -/
def smulV (c : ℚ) (v : V2) : V2 := (c * v.1, c * v.2)

/-- `P2::from_coordinates((a.coords + b.coords) / 2.0)`: the midpoint. -/
def midpt (a b : P2) : P2 := ((a.1 + b.1) / 2, (a.2 + b.2) / 2)

/-- One curve segment of a `descartes` path: a straight line or a circular
arc.  Arcs are kept symbolic (start point, start direction, target point),
which is all `calculate_prototypes` ever inspects. -/
inductive Segment : Type where
  | line (a b : P2)
  | arc (a : P2) (d : V2) (b : P2)
deriving DecidableEq, Repr

def Segment.startPt : Segment → P2
  | .line a _ => a
  | .arc a _ _ => a

def Segment.endPt : Segment → P2
  | .line _ b => b
  | .arc _ _ b => b

/-- `Segment::line(a, b)`.  Modelled from the spec: the straight line
constructor fails exactly on a zero-length segment ("append a straight line
from `end` to `start` (skipped if zero-length)"). -/
def lineOpt (a b : P2) : Option Segment :=
  if a = b then none else some (Segment.line a b)

/-- `CPath`: an ordered list of curve segments. -/
structure CPath : Type where
  segments : List Segment
deriving DecidableEq, Repr

/-- Zero-gap continuity of a segment list, the `SmoothedPath` invariant. -/
def segsContinuous : List Segment → Bool
  | [] => true
  | [_] => true
  | a :: b :: rest =>
    if a.endPt = b.startPt then segsContinuous (b :: rest) else false

/-- `CPath::new(segments)`.  Modelled from the spec: path construction
"fails (returns `None`) if the resulting segment sequence cannot form a
valid continuous path (e.g., zero segments)". -/
def CPath.new (segs : List Segment) : Option CPath :=
  if segs.isEmpty then none
  else if segsContinuous segs then some ⟨segs⟩ else none

/-- `path.start()`: the first segment's start point (`descartes`). -/
def CPath.startPoint (p : CPath) : P2 :=
  match p.segments with
  | [] => zeroP
  | s :: _ => s.startPt

/-- `path.end()`: the last segment's end point (`descartes`). -/
def CPath.endPoint (p : CPath) : P2 :=
  match p.segments.getLast? with
  | some s => s.endPt
  | none => zeroP

/-- `CShape`: a closed shape with its boundary path, `shape.outline()`.
The `CShape::new` validity check only matters for the fatal `expect` in the
outline builder, which the design treats as an unreachable invariant
violation; construction is therefore modelled as direct wrapping. -/
structure CShape : Type where
  outlinePath : CPath
deriving DecidableEq, Repr

/-- One element of the list returned by `(path, outline).intersect()`:
only its distance along the first path (`along_a`) is ever consumed. -/
structure IntersectionPt : Type where
  alongA : ℚ
deriving DecidableEq, Repr

/-- The interface of the external `descartes` geometry library, as used by
`calculate_prototypes`.  All theorems are parametric in a `Geom`, i.e. they
hold for every implementation of these primitives. -/
structure Geom : Type where
  norm : V2 → ℚ
  normalize : V2 → V2
  arcWithDirection : P2 → V2 → P2 → Option Segment
  shiftOrthogonally : CPath → ℚ → Option CPath
  reverse : CPath → CPath
  length : CPath → ℚ
  along : CPath → ℚ → P2
  directionAlong : CPath → ℚ → V2
  subsection : CPath → ℚ → ℚ → Option CPath
  contains : CShape → P2 → Bool
  intersect : CPath → CPath → List IntersectionPt
  clipIntersection : CShape → CShape → Except Unit (List CShape)

/-- `LANE_WIDTH: N = 6.0`. -/
def LANE_WIDTH : ℚ := 6

/-- `LANE_DISTANCE: N = 0.8 * LANE_WIDTH`. -/
def LANE_DISTANCE : ℚ := (4 / 5) * LANE_WIDTH

/-- `CENTER_LANE_DISTANCE: N = LANE_DISTANCE`. -/
def CENTER_LANE_DISTANCE : ℚ := LANE_DISTANCE

/-- `RoadIntent { n_lanes_forward, n_lanes_backward }` (`u8` counts). -/
structure RoadIntent : Type where
  nLanesForward : ℕ
  nLanesBackward : ℕ
deriving DecidableEq, Repr

/-- A gesture's intent: a road with lane counts, or any non-road intent
(all of which `calculate_prototypes` ignores). -/
inductive GestureIntent : Type where
  | road (ri : RoadIntent)
  | other
deriving DecidableEq, Repr

/-- A user gesture: its polyline points and its intent. -/
structure Gesture : Type where
  points : List P2
  intent : GestureIntent
deriving DecidableEq, Repr

abbrev GestureId : Type := ℕ

/-- The plan: the iterable `(GestureId, Gesture)` pairs of `plan.gestures`. -/
structure Plan : Type where
  gestures : List (GestureId × Gesture)
deriving DecidableEq, Repr

/-- `LanePrototype(CPath)`. -/
structure LanePrototype : Type where
  path : CPath
deriving DecidableEq, Repr

/-- `IntersectionConnector(P2, V2)`. -/
structure IntersectionConnector : Type where
  pos : P2
  dir : V2
deriving DecidableEq, Repr

/-- `IntersectionPrototype`. -/
structure IntersectionPrototype : Type where
  shape : CShape
  incoming : List IntersectionConnector
  outgoing : List IntersectionConnector
  connectingLanes : List LanePrototype
  timings : List (List Bool)
deriving DecidableEq, Repr

/-- `RoadPrototype`. -/
inductive RoadPrototype : Type where
  | lane (l : LanePrototype)
  | intersection (i : IntersectionPrototype)
deriving DecidableEq, Repr

/-- `planning_new::Prototype`; only its `Road` variant is produced here. -/
inductive Prototype : Type where
  | road (r : RoadPrototype)
deriving DecidableEq, Repr

/-! ### Path smoother (lines 56-121) -/

/-- The body of the `end_start_directions` loop, with `prevCenter` threading
`center_points[i - 1]` (the first corner itself for `i = 0`).  For each
window `(first_corner, second_corner)`:
`this_center_point = center_points[i]`, `next_center_point =
center_points.get(i + 1).unwrap_or(&second_corner)`, and the anchor points
`end = first + dir * min(dist(first, prev_center), dist(first, this_center))`,
`start = second - dir * min(dist(second, this_center), dist(second, next_center))`. -/
def esdAux (G : Geom) (prevCenter : P2) : List P2 → List (P2 × P2 × V2)
  | first :: second :: rest =>
    let thisCenter := midpt first second
    let nextCenter := match rest with
      | [] => second
      | next :: _ => midpt second next
    let lineDirection := G.normalize (psub second first)
    let shorterDistanceToFirstCorner :=
      min (G.norm (psub first prevCenter)) (G.norm (psub first thisCenter))
    let shorterDistanceToSecondCorner :=
      min (G.norm (psub second thisCenter)) (G.norm (psub second nextCenter))
    (padd first (smulV shorterDistanceToFirstCorner lineDirection),
     psubv second (smulV shorterDistanceToSecondCorner lineDirection),
     lineDirection) :: esdAux G thisCenter (second :: rest)
  | _ => []

/-- `end_start_directions` for all consecutive point pairs of a gesture. -/
def endStartDirections (G : Geom) (pts : List P2) : List (P2 × P2 × V2) :=
  esdAux G (pts.headD zeroP) pts

/-- The segment-assembly loop: for each `(end, start, direction)` triple,
push the incoming arc if `Segment::arc_with_direction` succeeds, push the
connecting line if `Segment::line` succeeds, and advance the anchor. -/
def buildSegments (G : Geom) (prevPoint : P2) (prevDirection : V2) :
    List (P2 × P2 × V2) → List Segment
  | [] => []
  | (e, s, d) :: rest =>
    (G.arcWithDirection prevPoint prevDirection e).toList
      ++ (lineOpt e s).toList
      ++ buildSegments G s d rest

/-- The whole smoothing step for one gesture's points (callers guarantee at
least 2 points): build `end_start_directions`, assemble segments starting
from `points[0]` with direction `normalize(points[1] - points[0])`, and wrap
with `CPath::new`. -/
def smoothGesture (G : Geom) (points : List P2) : Option CPath :=
  CPath.new
    (buildSegments G (points.getD 0 zeroP)
      (G.normalize (psub (points.getD 1 zeroP) (points.getD 0 zeroP)))
      (endStartDirections G points))

/-- `gesture_intent_smooth_paths`: keep road gestures with at least 2 points
whose smoothing succeeds. -/
def gestureIntentSmoothPaths (G : Geom) (plan : Plan) :
    List (GestureId × RoadIntent × CPath) :=
  plan.gestures.filterMap fun pr =>
    match pr.2.intent with
    | GestureIntent.road ri =>
      if 2 ≤ pr.2.points.length then
        (smoothGesture G pr.2.points).map fun path => (pr.1, ri, path)
      else none
    | GestureIntent.other => none

/-! ### Outline builder (lines 128-154) -/

/-- The outline segment list of one road (`gesture_shapes` body):
`right_path = shift(+(CENTER/2 + n_fwd * LANE_DISTANCE)).unwrap_or(path).reverse()`,
`left_path = shift(-(CENTER/2 + n_bwd * LANE_DISTANCE)).unwrap_or(path)`,
then `left.segments ++ line(left.end, right.start) ++ right.segments ++
line(right.end, left.start)` where each closing `Segment::line` is an
`Option` chained as an iterator (so a failed line contributes nothing). -/
def roadOutline (G : Geom) (ri : RoadIntent) (path : CPath) : List Segment :=
  let rightPath := G.reverse
    ((G.shiftOrthogonally path
        (CENTER_LANE_DISTANCE / 2 + (ri.nLanesForward : ℚ) * LANE_DISTANCE)).getD path)
  let leftPath :=
    (G.shiftOrthogonally path
        (-(CENTER_LANE_DISTANCE / 2 + (ri.nLanesBackward : ℚ) * LANE_DISTANCE))).getD path
  leftPath.segments
    ++ (lineOpt leftPath.endPoint rightPath.startPoint).toList
    ++ rightPath.segments
    ++ (lineOpt rightPath.endPoint leftPath.startPoint).toList

/-- `gesture_shapes`: one closed outline shape per smoothed road. -/
def planShapes (G : Geom) (plan : Plan) : List CShape :=
  (gestureIntentSmoothPaths G plan).map fun t => CShape.mk (CPath.mk (roadOutline G t.2.1 t.2.2))

/-! ### Intersection detector (lines 156-186) -/

/-- The pair enumeration of `Itertools::cartesian_product`: for each element
of the first list, all elements of the second in order. -/
def cartProd {α β : Type} : List α → List β → List (α × β)
  | [], _ => []
  | a :: as, bs => bs.map (Prod.mk a) ++ cartProd as bs

/-- The `match clipper::clip {...}` expression: a clipping error is treated
as no intersection. -/
def okShapes : Except Unit (List CShape) → List CShape
  | .ok shapes => shapes
  | .error _ => []

/-- `intersection_shapes`: Boolean-intersection regions over all ordered
pairs of enumerated outlines, skipping `i_a == i_b` and clip errors. -/
def intersectionShapes (G : Geom) (shapes : List CShape) : List CShape :=
  (cartProd shapes.enum shapes.enum).flatMap fun pr =>
    if pr.1.1 = pr.2.1 then [] else okShapes (G.clipIntersection pr.1.2 pr.2.2)

/-- Wrap a clip region into an intersection prototype with empty connector,
lane and timing lists. -/
def emptyIntersection (s : CShape) : IntersectionPrototype :=
  ⟨s, [], [], [], []⟩

/-- `intersection_prototypes` as first collected (before lane trimming). -/
def intersectionPrototypes0 (G : Geom) (shapes : List CShape) : List IntersectionPrototype :=
  (intersectionShapes G shapes).map emptyIntersection

/-! ### Lane trimmer (lines 188-278) -/

/-- The per-lane offset list of one gesture: forward lanes at
`CENTER_LANE_DISTANCE / 2 + k * LANE_DISTANCE` for `k < n_lanes_forward`,
chained with the negated offsets for `k < n_lanes_backward`. -/
def laneOffsets (ri : RoadIntent) : List ℚ :=
  (List.range ri.nLanesForward).map
      (fun k => CENTER_LANE_DISTANCE / 2 + (k : ℚ) * LANE_DISTANCE)
    ++ (List.range ri.nLanesBackward).map
      (fun k => -(CENTER_LANE_DISTANCE / 2 + (k : ℚ) * LANE_DISTANCE))

/-- `raw_lane_paths`: per gesture, shift the smoothed path by every lane
offset, silently dropping offsets where `shift_orthogonally` fails. -/
def rawLanePaths (G : Geom) (gisp : List (GestureId × RoadIntent × CPath)) : List CPath :=
  gisp.flatMap fun t => (laneOffsets t.2.1).filterMap (G.shiftOrthogonally t.2.2)

/-- A cut interval `(entry_distance, exit_distance)` along a lane path. -/
abbrev Cut : Type := ℚ × ℚ

/-- The mutable per-lane-path trimming state: `start_trim`, `end_trim` and
the accumulated `cuts`. -/
structure TrimState : Type where
  startTrim : ℚ
  endTrim : ℚ
  cuts : List Cut
deriving DecidableEq, Repr

/-- `Iterator::min` over the `along_a` distances (callers guarantee the list
is nonempty). -/
def minAlong (pts : List IntersectionPt) : ℚ :=
  match pts.map IntersectionPt.alongA with
  | [] => 0
  | x :: xs => xs.foldl min x

/-- `Iterator::max` over the `along_a` distances. -/
def maxAlong (pts : List IntersectionPt) : ℚ :=
  match pts.map IntersectionPt.alongA with
  | [] => 0
  | x :: xs => xs.foldl max x

/-- The body of the `for intersection in &mut intersection_prototypes` loop
for one lane path and one intersection: on 2 or more boundary crossings push
an incoming connector at the minimum distance and an outgoing one at the
maximum and record the cut; on exactly one crossing and the path start
(resp. end) inside the shape push an outgoing (resp. incoming) connector and
raise `start_trim` (resp. lower `end_trim`); otherwise do nothing. -/
def processOneIntersection (G : Geom) (path : CPath)
    (inter : IntersectionPrototype) (st : TrimState) :
    IntersectionPrototype × TrimState :=
  let pts := G.intersect path inter.shape.outlinePath
  if 2 ≤ pts.length then
    let entryDistance := minAlong pts
    let exitDistance := maxAlong pts
    ({ inter with
        incoming := inter.incoming
          ++ [⟨G.along path entryDistance, G.directionAlong path entryDistance⟩],
        outgoing := inter.outgoing
          ++ [⟨G.along path exitDistance, G.directionAlong path exitDistance⟩] },
     { st with cuts := st.cuts ++ [(entryDistance, exitDistance)] })
  else if pts.length = 1 then
    let d := (pts.getD 0 ⟨0⟩).alongA
    if G.contains inter.shape path.startPoint then
      ({ inter with
          outgoing := inter.outgoing ++ [⟨G.along path d, G.directionAlong path d⟩] },
       { st with startTrim := max st.startTrim d })
    else if G.contains inter.shape path.endPoint then
      ({ inter with
          incoming := inter.incoming ++ [⟨G.along path d, G.directionAlong path d⟩] },
       { st with endTrim := min st.endTrim d })
    else (inter, st)
  else (inter, st)

/-- Run one lane path over the whole intersection list in order, threading
the trim state and returning the updated intersections in place. -/
def mapTrim (G : Geom) (path : CPath) (st : TrimState) :
    List IntersectionPrototype → List IntersectionPrototype × TrimState
  | [] => ([], st)
  | inter :: rest =>
    let r := processOneIntersection G path inter st
    let rr := mapTrim G path r.2 rest
    (r.1 :: rr.1, rr.2)

/-- `cuts.sort_by(|a, b| OrderedFloat(a.0).cmp(&OrderedFloat(b.0)))`:
Rust's stable sort by entry distance, modelled by the (stable) insertion
sort. -/
def sortCuts (cuts : List Cut) : List Cut :=
  List.insertionSort (fun a b : Cut => a.1 ≤ b.1) cuts

/-- The cut list after sorting and adding the two sentinels
`(-1, start_trim)` in front and `(end_trim, length + 1)` at the back. -/
def sentineledCuts (G : Geom) (path : CPath) (st : TrimState) : List Cut :=
  ((-1 : ℚ), st.startTrim) :: sortCuts st.cuts ++ [(st.endTrim, G.length path + 1)]

/-- `slice::windows(2)` restricted to what the trimmer consumes: all
consecutive pairs of a list. -/
def windows2 {α : Type} : List α → List (α × α)
  | a :: b :: rest => (a, b) :: windows2 (b :: rest)
  | _ => []

/-- The final trim state of one raw lane path against an intersection list:
`start_trim = 0`, `end_trim = path.length()`, no cuts initially. -/
def trimStateFor (G : Geom) (inters : List IntersectionPrototype) (path : CPath) : TrimState :=
  (mapTrim G path ⟨0, G.length path, []⟩ inters).2

/-- Process one raw lane path: thread it over all intersections, then walk
consecutive sentineled cuts and keep every subsection
`(previous.exit, next.entry)` that extracts successfully. -/
def trimOnePath (G : Geom) (inters : List IntersectionPrototype) (path : CPath) :
    List IntersectionPrototype × List CPath :=
  let r := mapTrim G path ⟨0, G.length path, []⟩ inters
  (r.1,
   (windows2 (sentineledCuts G path r.2)).filterMap fun pr =>
     G.subsection path pr.1.2 pr.2.1)

/-- `intersected_lane_paths`: all raw lane paths in order, each mutating the
shared intersection list. -/
def trimAll (G : Geom) (inters : List IntersectionPrototype) :
    List CPath → List IntersectionPrototype × List CPath
  | [] => (inters, [])
  | path :: rest =>
    let r := trimOnePath G inters path
    let rr := trimAll G r.1 rest
    (rr.1, r.2 ++ rr.2)

/-! ### The pipeline (lines 50-284) -/

/-- `calculate_prototypes`: smoothing, outlines, pairwise intersections,
lane trimming, then the intersections chained with the lanes. -/
def calculatePrototypes (G : Geom) (plan : Plan) : List Prototype :=
  let gisp := gestureIntentSmoothPaths G plan
  let shapes := planShapes G plan
  let inters := intersectionPrototypes0 G shapes
  let raw := rawLanePaths G gisp
  let r := trimAll G inters raw
  r.1.map (fun ip => Prototype.road (RoadPrototype.intersection ip))
    ++ r.2.map (fun p => Prototype.road (RoadPrototype.lane ⟨p⟩))

/-! ### Definitions used to state the claims -/

/-- The crossing points of one lane path with one intersection's outline. -/
def crossingsOf (G : Geom) (path : CPath) (inter : IntersectionPrototype) :
    List IntersectionPt :=
  G.intersect path inter.shape.outlinePath

/-- The entry distance (minimum crossing distance) of a lane path at an
intersection. -/
def entryOf (G : Geom) (path : CPath) (inter : IntersectionPrototype) : ℚ :=
  minAlong (crossingsOf G path inter)

/-- The exit distance (maximum crossing distance) of a lane path at an
intersection. -/
def exitOf (G : Geom) (path : CPath) (inter : IntersectionPrototype) : ℚ :=
  maxAlong (crossingsOf G path inter)

/-- The crossing distance in the single-crossing case. -/
def singleDistOf (G : Geom) (path : CPath) (inter : IntersectionPrototype) : ℚ :=
  ((crossingsOf G path inter).getD 0 ⟨0⟩).alongA

/-- The intersection-detector output as the specification words it: for
every ordered pair of distinct outline indices, each successful clip region
becomes one `IntersectionPrototype` with empty connector lists; self pairs
produce nothing; clipping failures are skipped. -/
def specIntersectionPrototypes (G : Geom) (shapes : List CShape) : List IntersectionPrototype :=
  (cartProd shapes.enum shapes.enum).flatMap fun pr =>
    if pr.1.1 = pr.2.1 then []
    else (okShapes (G.clipIntersection pr.1.2 pr.2.2)).map emptyIntersection

/-- The cut-walking step as the specification words it: sort the cuts
ascending by entry distance, add the sentinels `(-1, start_trim)` and
`(end_trim, path_length + 1)`, extract the sub-path `(previous.exit,
next.entry)` of every consecutive pair, and omit failed extractions. -/
def specTrimLane (G : Geom) (path : CPath) (st : TrimState) : List CPath :=
  (windows2
      (((-1 : ℚ), st.startTrim)
        :: List.insertionSort (fun a b : Cut => a.1 ≤ b.1) st.cuts
        ++ [(st.endTrim, G.length path + 1)])).filterMap
    fun pr => G.subsection path pr.1.2 pr.2.1

/-- The road outline with the degenerate closing lines made explicit: each
closing line is present exactly when its two endpoints differ (the amended
form of the outline claim). -/
def specRoadOutline (G : Geom) (ri : RoadIntent) (path : CPath) : List Segment :=
  let rightBoundary := G.reverse
    ((G.shiftOrthogonally path
        (CENTER_LANE_DISTANCE / 2 + (ri.nLanesForward : ℚ) * LANE_DISTANCE)).getD path)
  let leftBoundary :=
    (G.shiftOrthogonally path
        (-(CENTER_LANE_DISTANCE / 2 + (ri.nLanesBackward : ℚ) * LANE_DISTANCE))).getD path
  leftBoundary.segments
    ++ (if leftBoundary.endPoint = rightBoundary.startPoint then []
        else [Segment.line leftBoundary.endPoint rightBoundary.startPoint])
    ++ rightBoundary.segments
    ++ (if rightBoundary.endPoint = leftBoundary.startPoint then []
        else [Segment.line rightBoundary.endPoint leftBoundary.startPoint])

/-- The previous center point used by segment `i` of the smoother: the
seed (`first_corner` at the top-level call) for `i = 0`, and
`center_points[i - 1]` otherwise. -/
def prevCenterAt (seed : P2) (pts : List P2) (i : ℕ) : P2 :=
  if i = 0 then seed else midpt (pts.getD (i - 1) zeroP) (pts.getD i zeroP)

/-- The next center point used by segment `i` of the smoother:
`center_points[i + 1]` when it exists, the second corner otherwise. -/
def nextCenterAt (pts : List P2) (i : ℕ) : P2 :=
  match pts.get? (i + 2) with
  | some nxt => midpt (pts.getD (i + 1) zeroP) nxt
  | none => pts.getD (i + 1) zeroP

/-- The `(end, start, direction)` triple of segment `i` spelt out against
the gesture points: the `end` anchor sits along the segment direction from
the first corner at the shorter of the distances to the two neighbouring
center points, and the `start` anchor sits backward from the second corner
symmetrically. -/
def esdEntry (G : Geom) (seed : P2) (pts : List P2) (i : ℕ) : P2 × P2 × V2 :=
  let first := pts.getD i zeroP
  let second := pts.getD (i + 1) zeroP
  let thisCenter := midpt first second
  let dir := G.normalize (psub second first)
  let dF := min (G.norm (psub first (prevCenterAt seed pts i)))
               (G.norm (psub first thisCenter))
  let dS := min (G.norm (psub second thisCenter))
               (G.norm (psub second (nextCenterAt pts i)))
  (padd first (smulV dF dir), psubv second (smulV dS dir), dir)

/-! ### Concrete geometry instances for evaluating the theorems -/

/-- Reversal of one concrete segment (for the concrete test geometry). -/
def segReverse : Segment → Segment
  | .line a b => .line b a
  | .arc a d b => .arc b d a

/-- A concrete, fully computable geometry implementation used to evaluate
the theorems and counterexamples: the taxicab norm, symbolic arcs that are
degenerate exactly on coincident endpoints, subsections that succeed exactly
on proper intervals and record their interval as a line segment, and
table-driven crossing, containment, length and shift functions. -/
def simpleGeom (cross : CPath → List IntersectionPt) (cont : CShape → P2 → Bool)
    (len : ℚ) (shift : CPath → ℚ → Option CPath) : Geom where
  norm v := |v.1| + |v.2|
  normalize v := v
  arcWithDirection p d q := if q = p then none else some (Segment.arc p d q)
  shiftOrthogonally := shift
  reverse p := ⟨(p.segments.map segReverse).reverse⟩
  length _ := len
  along _ d := (d, 0)
  directionAlong _ _ := (1, 0)
  subsection _ a b := if a < b then some ⟨[Segment.line (a, 0) (b, 0)]⟩ else none
  contains := cont
  intersect _ q := cross q
  clipIntersection a _ := .ok [a]

/-- The concrete raw lane path of the trimming examples. -/
def pathI : CPath := ⟨[Segment.line (0, 0) (20, 0)]⟩

/-- Marker outline of concrete intersection `A`. -/
def outA : CPath := ⟨[Segment.line (101, 0) (102, 0)]⟩

/-- Marker outline of concrete intersection `B`. -/
def outB : CPath := ⟨[Segment.line (201, 0) (202, 0)]⟩

def shapeA : CShape := ⟨outA⟩

def shapeB : CShape := ⟨outB⟩

def interA : IntersectionPrototype := emptyIntersection shapeA

def interB : IntersectionPrototype := emptyIntersection shapeB

/-- Geometry where the lane path crosses `A` twice (distances 1 and 2). -/
def gwTrim : Geom :=
  simpleGeom (fun q => if q = outA then [⟨1⟩, ⟨2⟩] else [])
    (fun _ _ => false) 20 (fun _ _ => none)

/-- Geometry where the lane path crosses `B` once (distance 5) and starts
inside `B`. -/
def gwStart : Geom :=
  simpleGeom (fun q => if q = outB then [⟨5⟩] else [])
    (fun s p => decide (s = shapeB) && decide (p = (0, 0))) 20 (fun _ _ => none)

/-- Geometry where the lane path crosses `A` once (distance 7) but neither
of its endpoints is inside. -/
def gwMiss : Geom :=
  simpleGeom (fun q => if q = outA then [⟨7⟩] else [])
    (fun _ _ => false) 20 (fun _ _ => none)

/-- Trivial geometry: no crossings, no containment, every shift fails. -/
def gwEmpty : Geom :=
  simpleGeom (fun _ => []) (fun _ _ => false) 20 (fun _ _ => none)

/-- Geometry whose shift fails exactly at offset `36/5` (the second forward
lane) and otherwise returns a marker path. -/
def gwShift : Geom :=
  simpleGeom (fun _ => []) (fun _ _ => false) 20
    (fun _ o => if o = 36 / 5 then none else some ⟨[Segment.line (o, 0) (o, 1)]⟩)

/-- Geometry realising the nested-cut scenario: the lane path crosses `A`
at distances 1 and 10 and a second intersection `B` at distances 2 and 3. -/
def gceCuts : Geom :=
  simpleGeom
    (fun q => if q = outA then [⟨1⟩, ⟨10⟩] else if q = outB then [⟨2⟩, ⟨3⟩] else [])
    (fun _ _ => false) 20 (fun _ _ => none)

/-- Geometry realising the cut-before-single-crossing scenario: the lane
path crosses `A` at distances 2 and 3, crosses `B` once at distance 5, and
starts inside `B`. -/
def gceStart : Geom :=
  simpleGeom
    (fun q => if q = outA then [⟨2⟩, ⟨3⟩] else if q = outB then [⟨5⟩] else [])
    (fun s p => decide (s = shapeB) && decide (p = (0, 0))) 20 (fun _ _ => none)

/-! ### List and indexing helpers -/

instance : IsTotal Cut (fun a b : Cut => a.1 ≤ b.1) :=
  ⟨fun a b => le_total a.1 b.1⟩

instance : IsTrans Cut (fun a b : Cut => a.1 ≤ b.1) :=
  ⟨fun _ _ _ h1 h2 => le_trans h1 h2⟩

theorem windows2_mem {α : Type} :
    ∀ (L : List α) (pr : α × α), pr ∈ windows2 L →
      ∃ i, L.get? i = some pr.1 ∧ L.get? (i + 1) = some pr.2
  | [], pr, h => by simp [windows2] at h
  | [a], pr, h => by simp [windows2] at h
  | a :: b :: rest, pr, h => by
    rw [show windows2 (a :: b :: rest) = (a, b) :: windows2 (b :: rest) from rfl] at h
    rcases List.mem_cons.mp h with h1 | h2
    · subst h1
      exact ⟨0, rfl, rfl⟩
    · obtain ⟨i, h3, h4⟩ := windows2_mem (b :: rest) pr h2
      exact ⟨i + 1, h3, h4⟩

theorem get_append_length {α : Type} :
    ∀ (l1 : List α) (a : α) (l2 : List α), (l1 ++ a :: l2).get? l1.length = some a
  | [], _, _ => rfl
  | _ :: t, a, l2 => get_append_length t a l2

theorem getAppendSingle {α : Type} :
    ∀ (t : List α) (bk : α) (j : ℕ) (u : α), (t ++ [bk]).get? j = some u →
      t.get? j = some u ∨ (j = t.length ∧ u = bk)
  | [], _, j, _, h => by
    cases j with
    | zero => exact Or.inr ⟨rfl, (Option.some.inj h).symm⟩
    | succ n => simp at h
  | c :: t, bk, j, u, h => by
    cases j with
    | zero => exact Or.inl h
    | succ n =>
      rcases getAppendSingle t bk n u h with h1 | ⟨h2, h3⟩
      · exact Or.inl h1
      · exact Or.inr ⟨by simp [h2], h3⟩

theorem sentGet {α : Type} (f bk : α) (t : List α) (i : ℕ) (u : α)
    (h : (f :: t ++ [bk]).get? i = some u) :
    (i = 0 ∧ u = f) ∨ (∃ j, i = j + 1 ∧ t.get? j = some u) ∨ (i = t.length + 1 ∧ u = bk) := by
  cases i with
  | zero => exact Or.inl ⟨rfl, (Option.some.inj h).symm⟩
  | succ n =>
    rcases getAppendSingle t bk n u h with h1 | ⟨h2, h3⟩
    · exact Or.inr (Or.inl ⟨n, rfl, h1⟩)
    · exact Or.inr (Or.inr ⟨by simp [h2], h3⟩)

/-! ### Trim-state evolution lemmas -/

theorem procOne_fst_indep (G : Geom) (path : CPath) (inter : IntersectionPrototype)
    (st st' : TrimState) :
    (processOneIntersection G path inter st).1 = (processOneIntersection G path inter st').1 := by
  unfold processOneIntersection
  by_cases h2 : 2 ≤ (G.intersect path inter.shape.outlinePath).length
  · simp [h2]
  · by_cases h1 : (G.intersect path inter.shape.outlinePath).length = 1
    · cases hs : G.contains inter.shape path.startPoint with
      | true => simp [h2, h1, hs]
      | false =>
        cases he : G.contains inter.shape path.endPoint with
        | true => simp [h2, h1, hs, he]
        | false => simp [h2, h1, hs, he]
    · simp [h2, h1]

theorem procOne_shape (G : Geom) (path : CPath) (inter : IntersectionPrototype)
    (st : TrimState) :
    (processOneIntersection G path inter st).1.shape = inter.shape := by
  unfold processOneIntersection
  by_cases h2 : 2 ≤ (G.intersect path inter.shape.outlinePath).length
  · simp [h2]
  · by_cases h1 : (G.intersect path inter.shape.outlinePath).length = 1
    · cases hs : G.contains inter.shape path.startPoint with
      | true => simp [h2, h1, hs]
      | false =>
        cases he : G.contains inter.shape path.endPoint with
        | true => simp [h2, h1, hs, he]
        | false => simp [h2, h1, hs, he]
    · simp [h2, h1]

theorem procOne_evolves (G : Geom) (path : CPath) (inter : IntersectionPrototype)
    (st : TrimState) :
    ∃ ex, (processOneIntersection G path inter st).2.cuts = st.cuts ++ ex
      ∧ st.startTrim ≤ (processOneIntersection G path inter st).2.startTrim
      ∧ (processOneIntersection G path inter st).2.endTrim ≤ st.endTrim := by
  unfold processOneIntersection
  by_cases h2 : 2 ≤ (G.intersect path inter.shape.outlinePath).length
  · refine ⟨[(minAlong (G.intersect path inter.shape.outlinePath),
      maxAlong (G.intersect path inter.shape.outlinePath))], ?_, ?_, ?_⟩ <;> simp [h2]
  · by_cases h1 : (G.intersect path inter.shape.outlinePath).length = 1
    · cases hs : G.contains inter.shape path.startPoint with
      | true =>
        refine ⟨[], ?_, ?_, ?_⟩ <;> simp [h2, h1, hs, le_max_left]
      | false =>
        cases he : G.contains inter.shape path.endPoint with
        | true => refine ⟨[], ?_, ?_, ?_⟩ <;> simp [h2, h1, hs, he, min_le_left]
        | false => refine ⟨[], ?_, ?_, ?_⟩ <;> simp [h2, h1, hs, he]
    · refine ⟨[], ?_, ?_, ?_⟩ <;> simp [h2, h1]

theorem mapTrim_append (G : Geom) (path : CPath) :
    ∀ (l1 l2 : List IntersectionPrototype) (st : TrimState),
      mapTrim G path st (l1 ++ l2) =
        ((mapTrim G path st l1).1 ++ (mapTrim G path (mapTrim G path st l1).2 l2).1,
         (mapTrim G path (mapTrim G path st l1).2 l2).2)
  | [], l2, st => by simp [mapTrim]
  | inter :: rest, l2, st => by
    have ih := mapTrim_append G path rest l2 (processOneIntersection G path inter st).2
    show ((processOneIntersection G path inter st).1
        :: (mapTrim G path (processOneIntersection G path inter st).2 (rest ++ l2)).1,
        (mapTrim G path (processOneIntersection G path inter st).2 (rest ++ l2)).2) = _
    rw [ih]
    rfl

theorem mapTrim_fst_length (G : Geom) (path : CPath) :
    ∀ (l : List IntersectionPrototype) (st : TrimState),
      ((mapTrim G path st l).1).length = l.length
  | [], st => rfl
  | inter :: rest, st => by
    simp [mapTrim, mapTrim_fst_length G path rest (processOneIntersection G path inter st).2]

theorem mapTrim_fst_get (G : Geom) (path : CPath) :
    ∀ (l : List IntersectionPrototype) (st : TrimState) (j : ℕ),
      ((mapTrim G path st l).1).get? j =
        (l.get? j).map fun it => (processOneIntersection G path it st).1
  | [], st, j => by simp [mapTrim]
  | inter :: rest, st, j => by
    cases j with
    | zero => simp [mapTrim]
    | succ n =>
      show ((mapTrim G path (processOneIntersection G path inter st).2 rest).1).get? n =
        (rest.get? n).map fun it => (processOneIntersection G path it st).1
      rw [mapTrim_fst_get G path rest (processOneIntersection G path inter st).2 n]
      cases h : rest.get? n with
      | none => rfl
      | some it =>
        simp [procOne_fst_indep G path it (processOneIntersection G path inter st).2 st]

theorem mapTrim_fst_map_shape (G : Geom) (path : CPath) :
    ∀ (l : List IntersectionPrototype) (st : TrimState),
      ((mapTrim G path st l).1).map IntersectionPrototype.shape =
        l.map IntersectionPrototype.shape
  | [], st => rfl
  | inter :: rest, st => by
    simp [mapTrim, procOne_shape,
      mapTrim_fst_map_shape G path rest (processOneIntersection G path inter st).2]

theorem mapTrim_cuts_extend (G : Geom) (path : CPath) :
    ∀ (l : List IntersectionPrototype) (st : TrimState),
      ∃ ex, (mapTrim G path st l).2.cuts = st.cuts ++ ex
  | [], st => ⟨[], by simp [mapTrim]⟩
  | inter :: rest, st => by
    obtain ⟨e1, h1, _, _⟩ := procOne_evolves G path inter st
    obtain ⟨e2, h2⟩ :=
      mapTrim_cuts_extend G path rest (processOneIntersection G path inter st).2
    exact ⟨e1 ++ e2, by simp [mapTrim, h2, h1]⟩

theorem mapTrim_start_mono (G : Geom) (path : CPath) :
    ∀ (l : List IntersectionPrototype) (st : TrimState),
      st.startTrim ≤ (mapTrim G path st l).2.startTrim
  | [], st => le_refl _
  | inter :: rest, st => by
    obtain ⟨_, _, h2, _⟩ := procOne_evolves G path inter st
    exact le_trans h2
      (mapTrim_start_mono G path rest (processOneIntersection G path inter st).2)

theorem mapTrim_end_anti (G : Geom) (path : CPath) :
    ∀ (l : List IntersectionPrototype) (st : TrimState),
      (mapTrim G path st l).2.endTrim ≤ st.endTrim
  | [], st => le_refl _
  | inter :: rest, st => by
    obtain ⟨_, _, _, h3⟩ := procOne_evolves G path inter st
    exact le_trans
      (mapTrim_end_anti G path rest (processOneIntersection G path inter st).2) h3

theorem procOne_trims_id (G : Geom) (path : CPath) (inter : IntersectionPrototype)
    (st : TrimState)
    (hI : (G.intersect path inter.shape.outlinePath).length = 1 →
      G.contains inter.shape path.startPoint = false
        ∧ G.contains inter.shape path.endPoint = false) :
    (processOneIntersection G path inter st).2.startTrim = st.startTrim
      ∧ (processOneIntersection G path inter st).2.endTrim = st.endTrim := by
  unfold processOneIntersection
  by_cases h2 : 2 ≤ (G.intersect path inter.shape.outlinePath).length
  · simp [h2]
  · by_cases h1 : (G.intersect path inter.shape.outlinePath).length = 1
    · obtain ⟨hs, he⟩ := hI h1
      simp [h2, h1, hs, he]
    · simp [h2, h1]

theorem mapTrim_trims_id (G : Geom) (path : CPath) :
    ∀ (l : List IntersectionPrototype) (st : TrimState),
      (∀ inter ∈ l, (G.intersect path inter.shape.outlinePath).length = 1 →
        G.contains inter.shape path.startPoint = false
          ∧ G.contains inter.shape path.endPoint = false) →
      (mapTrim G path st l).2.startTrim = st.startTrim
        ∧ (mapTrim G path st l).2.endTrim = st.endTrim
  | [], st, _ => ⟨rfl, rfl⟩
  | inter :: rest, st, hI => by
    obtain ⟨ha, hb⟩ := procOne_trims_id G path inter st (hI inter (by simp))
    obtain ⟨hc, hd⟩ :=
      mapTrim_trims_id G path rest (processOneIntersection G path inter st).2
        (fun it hit => hI it (by simp [hit]))
    exact ⟨by rw [show (mapTrim G path st (inter :: rest)).2
        = (mapTrim G path (processOneIntersection G path inter st).2 rest).2 from rfl, hc, ha],
      by rw [show (mapTrim G path st (inter :: rest)).2
        = (mapTrim G path (processOneIntersection G path inter st).2 rest).2 from rfl, hd, hb]⟩

/-! ### Index-based access and pairwise helpers -/

theorem getIndex_of_mem {α : Type} :
    ∀ (l : List α) (a : α), a ∈ l → ∃ n, l.get? n = some a
  | [], a, h => by simp at h
  | b :: l, a, h => by
    rcases List.mem_cons.mp h with h1 | h2
    · exact ⟨0, by simp [h1]⟩
    · obtain ⟨n, hn⟩ := getIndex_of_mem l a h2
      exact ⟨n + 1, hn⟩

theorem mem_of_getIndex {α : Type} :
    ∀ (l : List α) (n : ℕ) (a : α), l.get? n = some a → a ∈ l
  | b :: _, 0, a, h => by simp [(Option.some.inj h).symm]
  | b :: l, n + 1, a, h => List.mem_cons_of_mem b (mem_of_getIndex l n a h)
  | [], _, _, h => by simp at h

theorem getIndex_lt_length {α : Type} :
    ∀ (l : List α) (n : ℕ) (a : α), l.get? n = some a → n < l.length
  | _ :: _, 0, _, _ => Nat.succ_pos _
  | _ :: l, n + 1, a, h => Nat.succ_lt_succ (getIndex_lt_length l n a h)
  | [], _, _, h => by simp at h

theorem pairwise_of_get {α : Type} {R : α → α → Prop} :
    ∀ (l : List α), l.Pairwise R → ∀ (i j : ℕ) (u v : α), i < j →
      l.get? i = some u → l.get? j = some v → R u v
  | [], _, i, _, _, _, _, hu, _ => by simp at hu
  | a :: l, hp, i, j, u, v, hij, hu, hv => by
    rcases List.pairwise_cons.mp hp with ⟨ha, hl⟩
    cases i with
    | zero =>
      cases j with
      | zero => omega
      | succ k =>
        have hu' : u = a := (Option.some.inj hu).symm
        subst hu'
        exact ha v (mem_of_getIndex l k v hv)
    | succ n =>
      cases j with
      | zero => omega
      | succ k => exact pairwise_of_get l hl n k u v (by omega) hu hv

theorem pairwise_strengthen {α : Type} {R S : α → α → Prop} :
    ∀ (l : List α), l.Pairwise R → (∀ a ∈ l, ∀ b ∈ l, R a b → S a b) → l.Pairwise S
  | [], _, _ => List.Pairwise.nil
  | a :: l, hp, h => by
    rcases List.pairwise_cons.mp hp with ⟨ha, hl⟩
    refine List.pairwise_cons.mpr ⟨?_, pairwise_strengthen l hl ?_⟩
    · intro b hb
      exact h a (by simp) b (by simp [hb]) (ha b hb)
    · intro x hx y hy hr
      exact h x (by simp [hx]) y (by simp [hy]) hr

/-! ### Sorting facts for the cut list -/

theorem sortCuts_sorted (l : List Cut) :
    List.Sorted (fun a b : Cut => a.1 ≤ b.1) (sortCuts l) :=
  List.sorted_insertionSort _ l

theorem sortCuts_mem (l : List Cut) (c : Cut) : c ∈ sortCuts l ↔ c ∈ l :=
  List.mem_insertionSort _

theorem sortCuts_pairwise (l : List Cut)
    (hMono : ∀ c ∈ l, ∀ c' ∈ l, c.1 ≤ c'.1 → c.2 ≤ c'.2) :
    (sortCuts l).Pairwise fun a b : Cut => a.1 ≤ b.1 ∧ a.2 ≤ b.2 := by
  refine pairwise_strengthen (sortCuts l) (sortCuts_sorted l) ?_
  intro a ha b hb hab
  exact ⟨hab, hMono a ((sortCuts_mem l a).mp ha) b ((sortCuts_mem l b).mp hb) hab⟩

/-- The central interval fact behind the lane trimmer: between a sentineled
list of cuts that is sorted by entry with nondecreasing exits, the gap
spanned by any two consecutive entries never overlaps any of the cuts. -/
theorem gapCutDisjoint (t : List Cut)
    (ht : t.Pairwise fun a b : Cut => a.1 ≤ b.1 ∧ a.2 ≤ b.2)
    (f bk : Cut) (i : ℕ) (u v : Cut)
    (hu : (f :: t ++ [bk]).get? i = some u)
    (hv : (f :: t ++ [bk]).get? (i + 1) = some v)
    (c : Cut) (hc : c ∈ t) :
    ¬ (max u.2 c.1 < min v.1 c.2) := by
  obtain ⟨jc, hjc⟩ := getIndex_of_mem t c hc
  have hjclt : jc < t.length := getIndex_lt_length t jc c hjc
  rcases sentGet f bk t i u hu with ⟨hi0, huf⟩ | ⟨ju, hij, hju⟩ | ⟨hiL, hub⟩
  · -- the front-sentinel gap: every cut starts at or after `v.1`
    subst hi0
    rcases sentGet f bk t 1 v hv with ⟨h10, _⟩ | ⟨jv, hjv1, hjv⟩ | ⟨h1L, hvb⟩
    · omega
    · have hjv0 : jv = 0 := by omega
      subst hjv0
      have hvc : v.1 ≤ c.1 := by
        rcases Nat.eq_zero_or_pos jc with h0 | hpos
        · subst h0
          have : v = c := Option.some.inj (hjv.symm.trans hjc)
          simp [this]
        · exact (pairwise_of_get t ht 0 jc v c hpos hjv hjc).1
      intro hlt
      have h1 : min v.1 c.2 ≤ v.1 := min_le_left _ _
      have h2 : c.1 ≤ max u.2 c.1 := le_max_right _ _
      linarith
    · have hlen0 : t.length = 0 := by omega
      rw [List.length_eq_zero] at hlen0
      subst hlen0
      simp at hc
  · -- a gap starting at cut `ju`: earlier cuts have smaller exits, later
    -- cuts have larger entries
    subst hij
    rcases sentGet f bk t (ju + 1 + 1) v hv with ⟨habs, _⟩ | ⟨jv, hjv1, hjv⟩ | ⟨hvL, hvb⟩
    · omega
    · have hjveq : jv = ju + 1 := by omega
      subst hjveq
      rcases lt_trichotomy jc ju with hlt | heq | hgt
      · have hcu : c.2 ≤ u.2 := (pairwise_of_get t ht jc ju c u hlt hjc hju).2
        intro hl
        have h1 : min v.1 c.2 ≤ c.2 := min_le_right _ _
        have h2 : u.2 ≤ max u.2 c.1 := le_max_left _ _
        linarith
      · subst heq
        have hcu : c = u := Option.some.inj (hjc.symm.trans hju)
        intro hl
        have h1 : min v.1 c.2 ≤ c.2 := min_le_right _ _
        have h2 : u.2 ≤ max u.2 c.1 := le_max_left _ _
        have h5 : c.2 = u.2 := by rw [hcu]
        linarith
      · rcases eq_or_lt_of_le (Nat.succ_le_of_lt hgt) with h2 | h2
        · rw [← h2] at hjc
          have hcv : v = c := Option.some.inj (hjv.symm.trans hjc)
          intro hl
          have h3 : min v.1 c.2 ≤ v.1 := min_le_left _ _
          have h4 : c.1 ≤ max u.2 c.1 := le_max_right _ _
          have h5 : v.1 = c.1 := by rw [hcv]
          linarith
        · have hvc : v.1 ≤ c.1 := (pairwise_of_get t ht (ju + 1) jc v c h2 hjv hjc).1
          intro hl
          have h3 : min v.1 c.2 ≤ v.1 := min_le_left _ _
          have h4 : c.1 ≤ max u.2 c.1 := le_max_right _ _
          linarith
    · -- the gap before the back sentinel: all cuts have exits at most `u.2`
      have hju1 : ju + 1 = t.length := by omega
      have hjcle : jc < ju + 1 := by omega
      rcases eq_or_lt_of_le (Nat.lt_succ_iff.mp hjcle) with h2 | h2
      · rw [h2] at hjc
        have hcu : c = u := Option.some.inj (hjc.symm.trans hju)
        intro hl
        have h1 : min v.1 c.2 ≤ c.2 := min_le_right _ _
        have h3 : u.2 ≤ max u.2 c.1 := le_max_left _ _
        have h5 : c.2 = u.2 := by rw [hcu]
        linarith
      · have hcu : c.2 ≤ u.2 := (pairwise_of_get t ht jc ju c u h2 hjc hju).2
        intro hl
        have h1 : min v.1 c.2 ≤ c.2 := min_le_right _ _
        have h3 : u.2 ≤ max u.2 c.1 := le_max_left _ _
        linarith
  · -- `u` cannot be the back sentinel: there is nothing after it
    subst hiL
    have hlt := getIndex_lt_length _ _ _ hv
    simp only [List.length_cons, List.length_append, List.length_singleton, List.length_nil] at hlt
    omega

/-- The first component of any consecutive pair in the sentineled cut list
is either the front sentinel or one of the sorted cuts. -/
theorem windowsFstCases (f bk : Cut) (t : List Cut) (pr : Cut × Cut)
    (h : pr ∈ windows2 (f :: t ++ [bk])) : pr.1 = f ∨ pr.1 ∈ t := by
  obtain ⟨i, h1, h2⟩ := windows2_mem _ pr h
  rcases sentGet f bk t i pr.1 h1 with ⟨_, he⟩ | ⟨j, _, hj⟩ | ⟨hiL, _⟩
  · exact Or.inl he
  · exact Or.inr (mem_of_getIndex t j pr.1 hj)
  · exfalso
    subst hiL
    have hlt := getIndex_lt_length _ _ _ h2
    simp only [List.length_cons, List.length_append, List.length_singleton, List.length_nil] at hlt
    omega

/-! ### Remaining structural lemmas -/

theorem lineOpt_toList (a b : P2) :
    (lineOpt a b).toList = if a = b then [] else [Segment.line a b] := by
  unfold lineOpt
  split <;> rfl

theorem trimAll_fst_map_shape (G : Geom) :
    ∀ (raw : List CPath) (inters : List IntersectionPrototype),
      ((trimAll G inters raw).1).map IntersectionPrototype.shape =
        inters.map IntersectionPrototype.shape
  | [], _ => rfl
  | path :: rest, inters => by
    show ((trimAll G (trimOnePath G inters path).1 rest).1).map IntersectionPrototype.shape = _
    rw [trimAll_fst_map_shape G rest (trimOnePath G inters path).1]
    show ((mapTrim G path ⟨0, G.length path, []⟩ inters).1).map IntersectionPrototype.shape = _
    rw [mapTrim_fst_map_shape]

/-! ### The claims -/

/-- Claim C10: if a raw lane path crosses an intersection polygon's boundary
at exactly one point and neither the path's start point nor its end point
lies inside that polygon, the intersection's connector lists are left
unchanged and the lane path receives no trim or cut from that intersection:
the processing step is the identity, the emitted lane sub-paths are the same
as if the intersection were absent, and the intersection reappears unchanged
in the output list. -/
theorem claim_c10 (G : Geom) (path : CPath)
    (pre post : List IntersectionPrototype) (inter : IntersectionPrototype)
    (h1 : (crossingsOf G path inter).length = 1)
    (hs : G.contains inter.shape path.startPoint = false)
    (he : G.contains inter.shape path.endPoint = false) :
    (∀ st, processOneIntersection G path inter st = (inter, st))
    ∧ (trimOnePath G (pre ++ inter :: post) path).2 = (trimOnePath G (pre ++ post) path).2
    ∧ (trimOnePath G (pre ++ inter :: post) path).1.get? pre.length = some inter := by
  have h1' : (G.intersect path inter.shape.outlinePath).length = 1 := h1
  have h2 : ¬ 2 ≤ (G.intersect path inter.shape.outlinePath).length := by omega
  have hstep : ∀ st, processOneIntersection G path inter st = (inter, st) := by
    intro st
    unfold processOneIntersection
    simp [h2, h1', hs, he]
  refine ⟨hstep, ?_, ?_⟩
  · have e2 : (mapTrim G path ⟨0, G.length path, []⟩ (pre ++ inter :: post)).2
        = (mapTrim G path ⟨0, G.length path, []⟩ (pre ++ post)).2 := by
      rw [mapTrim_append, mapTrim_append]
      show (mapTrim G path
          (processOneIntersection G path inter
            (mapTrim G path ⟨0, G.length path, []⟩ pre).2).2 post).2 = _
      rw [hstep]
    show ((windows2 (sentineledCuts G path
        (mapTrim G path ⟨0, G.length path, []⟩ (pre ++ inter :: post)).2)).filterMap
        fun pr => G.subsection path pr.1.2 pr.2.1) = _
    rw [e2]
    rfl
  · show ((mapTrim G path ⟨0, G.length path, []⟩ (pre ++ inter :: post)).1).get? pre.length
      = some inter
    rw [mapTrim_append]
    have e3 : (mapTrim G path
        (mapTrim G path ⟨0, G.length path, []⟩ pre).2 (inter :: post)).1
        = inter :: (mapTrim G path
            (mapTrim G path ⟨0, G.length path, []⟩ pre).2 post).1 := by
      show (processOneIntersection G path inter
          (mapTrim G path ⟨0, G.length path, []⟩ pre).2).1 :: _ = _
      rw [hstep]
    rw [e3]
    have e4 := get_append_length ((mapTrim G path ⟨0, G.length path, []⟩ pre).1) inter
      ((mapTrim G path (mapTrim G path ⟨0, G.length path, []⟩ pre).2 post).1)
    rw [mapTrim_fst_length] at e4
    exact e4

/-- Claim C10 witness: a concrete lane path crossing a concrete intersection
once at distance 7 with both endpoints outside. -/
theorem claim_c10_witness :
    (∀ st, processOneIntersection gwMiss pathI interA st = (interA, st))
    ∧ (trimOnePath gwMiss [interA] pathI).2 = (trimOnePath gwMiss [] pathI).2
    ∧ (trimOnePath gwMiss [interA] pathI).1.get? 0 = some interA :=
  claim_c10 gwMiss pathI [] [] interA (by decide) (by decide) (by decide)

/-- Claim C4: the Intersection Detector's output consists exactly of the
successful Boolean-intersection regions over every ordered pair of outlines
with distinct indices, each wrapped with empty connector lists (first
conjunct, against the specification-side enumeration); a two-outline list
contributes the clip regions of both orders (second conjunct), a self pair
contributes nothing (third conjunct), and a clip error contributes nothing
without aborting (the `okShapes` wrapper inside both sides). -/
theorem claim_c4 (G : Geom) (shapes : List CShape) :
    intersectionPrototypes0 G shapes = specIntersectionPrototypes G shapes
    ∧ (∀ a b : CShape, intersectionPrototypes0 G [a, b] =
        (okShapes (G.clipIntersection a b)
          ++ okShapes (G.clipIntersection b a)).map emptyIntersection)
    ∧ ∀ a : CShape, intersectionPrototypes0 G [a] = [] := by
  refine ⟨?_, ?_, ?_⟩
  · unfold intersectionPrototypes0 intersectionShapes specIntersectionPrototypes
    rw [List.map_flatMap]
    congr 1
    funext pr
    split
    · rfl
    · rfl
  · intro a b
    have e1 : ([a, b] : List CShape).enum = [(0, a), (1, b)] := rfl
    unfold intersectionPrototypes0 intersectionShapes
    rw [e1]
    show (((if (0 : ℕ) = 0 then [] else okShapes (G.clipIntersection a a))
        ++ ((if (0 : ℕ) = 1 then [] else okShapes (G.clipIntersection a b))
        ++ ((if (1 : ℕ) = 0 then [] else okShapes (G.clipIntersection b a))
        ++ ((if (1 : ℕ) = 1 then [] else okShapes (G.clipIntersection b b))
        ++ [])))).map emptyIntersection) = _
    simp
  · intro a
    rfl

/-- Claim C5: the Lane Trimmer generates one raw offset lane path per lane,
at offsets `CENTER_LANE_DISTANCE/2 + k * LANE_DISTANCE` for the forward
lanes and the negated offsets for the backward lanes (the `laneOffsets`
list); an offset whose construction fails is dropped without affecting the
gesture's other lanes (first conjunct), gestures are processed independently
without aborting the pipeline (second conjunct), and the produced paths are
exactly the successful shifts of the offset list (third conjunct). -/
theorem claim_c5 (G : Geom) (gid : GestureId) (ri : RoadIntent) (path : CPath)
    (l1 l2 : List ℚ) (o : ℚ)
    (hsplit : laneOffsets ri = l1 ++ o :: l2)
    (hfail : G.shiftOrthogonally path o = none) :
    rawLanePaths G [(gid, ri, path)] =
        l1.filterMap (G.shiftOrthogonally path) ++ l2.filterMap (G.shiftOrthogonally path)
    ∧ (∀ gs1 gs2 : List (GestureId × RoadIntent × CPath),
        rawLanePaths G (gs1 ++ gs2) = rawLanePaths G gs1 ++ rawLanePaths G gs2)
    ∧ ∀ q : CPath, q ∈ rawLanePaths G [(gid, ri, path)] ↔
        ∃ off ∈ laneOffsets ri, G.shiftOrthogonally path off = some q := by
  refine ⟨?_, ?_, ?_⟩
  · show (laneOffsets ri).filterMap (G.shiftOrthogonally path) ++ [] = _
    rw [hsplit]
    simp [List.filterMap_append, List.filterMap_cons, hfail]
  · intro gs1 gs2
    unfold rawLanePaths
    exact List.flatMap_append gs1 gs2 _
  · intro q
    show q ∈ (laneOffsets ri).filterMap (G.shiftOrthogonally path) ++ [] ↔ _
    simp [List.mem_filterMap]

/-- Claim C5 witness: with two forward lanes and one backward lane, the
shift at the second forward offset `36/5` fails and exactly the other two
lanes survive. -/
theorem claim_c5_witness :
    rawLanePaths gwShift [(0, ⟨2, 1⟩, pathI)] =
        ([12 / 5] : List ℚ).filterMap (gwShift.shiftOrthogonally pathI)
          ++ ([-(12 / 5)] : List ℚ).filterMap (gwShift.shiftOrthogonally pathI)
    ∧ (∀ gs1 gs2 : List (GestureId × RoadIntent × CPath),
        rawLanePaths gwShift (gs1 ++ gs2) = rawLanePaths gwShift gs1 ++ rawLanePaths gwShift gs2)
    ∧ ∀ q : CPath, q ∈ rawLanePaths gwShift [(0, ⟨2, 1⟩, pathI)] ↔
        ∃ off ∈ laneOffsets ⟨2, 1⟩, gwShift.shiftOrthogonally pathI off = some q :=
  claim_c5 gwShift 0 ⟨2, 1⟩ pathI [12 / 5] [-(12 / 5)] (36 / 5)
    (by norm_num [laneOffsets, CENTER_LANE_DISTANCE, LANE_DISTANCE, LANE_WIDTH,
      List.range_succ])
    (by norm_num [gwShift, simpleGeom])

/-- Claim C6, amended: the outline is the concatenation of the left
boundary's segments, the closing line from the left boundary's end to the
right boundary's start, the right boundary's segments, and the closing line
back — except that a closing line whose two endpoints coincide is
degenerate and omitted (the `Segment::line` option contributes nothing). -/
theorem claim_c6 (G : Geom) (ri : RoadIntent) (path : CPath) :
    roadOutline G ri path = specRoadOutline G ri path := by
  simp only [roadOutline, specRoadOutline, lineOpt_toList]

/-- Claim C6 counterexample: when both orthogonal shifts fail, both
boundaries fall back to the centerline, the closing-line endpoints coincide,
and the outline has only the two boundary segments — not the four segments
the claim asserts. -/
theorem claim_c6_counterexample :
    roadOutline gwEmpty ⟨1, 1⟩ ⟨[Segment.line (0, 0) (1, 0)]⟩ =
        [Segment.line (0, 0) (1, 0), Segment.line (1, 0) (0, 0)]
    ∧ roadOutline gwEmpty ⟨1, 1⟩ ⟨[Segment.line (0, 0) (1, 0)]⟩ ≠
        [Segment.line (0, 0) (1, 0), Segment.line (1, 0) (1, 0),
         Segment.line (1, 0) (0, 0), Segment.line (0, 0) (0, 0)] := by
  refine ⟨by decide, by decide⟩

/-- Claim C9: `calculate_prototypes` returns all intersection prototypes
(first, in pair-enumeration order — witnessed by their shapes matching the
detector's region list elementwise) followed by all lane prototypes (in
lane-generation order). -/
theorem claim_c9 (G : Geom) (plan : Plan) :
    calculatePrototypes G plan =
      ((trimAll G (intersectionPrototypes0 G (planShapes G plan))
          (rawLanePaths G (gestureIntentSmoothPaths G plan))).1).map
        (fun ip => Prototype.road (RoadPrototype.intersection ip))
      ++ ((trimAll G (intersectionPrototypes0 G (planShapes G plan))
          (rawLanePaths G (gestureIntentSmoothPaths G plan))).2).map
        (fun p => Prototype.road (RoadPrototype.lane ⟨p⟩))
    ∧ ((trimAll G (intersectionPrototypes0 G (planShapes G plan))
          (rawLanePaths G (gestureIntentSmoothPaths G plan))).1).map
        IntersectionPrototype.shape = intersectionShapes G (planShapes G plan) := by
  constructor
  · rfl
  · rw [trimAll_fst_map_shape]
    unfold intersectionPrototypes0
    rw [List.map_map]
    show (intersectionShapes G (planShapes G plan)).map (fun s => s) = _
    exact List.map_id' _

/-- Claim C1, amended: for a lane path crossing an intersection's boundary
at 2 or more points, the Lane Trimmer takes entry and exit as the minimum
and maximum crossing distances, appends exactly one connector to the
intersection's incoming and one to its outgoing list (first conjunct: the
updated intersection in the output is the old one with exactly those two
connectors appended), and records `(entry, exit)` as a cut (second
conjunct); and — provided the cuts recorded for this path are not strictly
nested in one another (when one cut starts no later than another, it also
ends no later: the `hMono` hypothesis the original claim lacks) — no emitted
lane sub-path interval overlaps the open interval `(entry, exit)` (third
conjunct). -/
theorem claim_c1 (G : Geom) (path : CPath)
    (pre post : List IntersectionPrototype) (inter : IntersectionPrototype)
    (h2 : 2 ≤ (crossingsOf G path inter).length)
    (hMono : ∀ c ∈ (trimStateFor G (pre ++ inter :: post) path).cuts,
      ∀ c' ∈ (trimStateFor G (pre ++ inter :: post) path).cuts,
        c.1 ≤ c'.1 → c.2 ≤ c'.2) :
    (trimOnePath G (pre ++ inter :: post) path).1.get? pre.length = some
      { inter with
        incoming := inter.incoming ++ [⟨G.along path (entryOf G path inter),
          G.directionAlong path (entryOf G path inter)⟩],
        outgoing := inter.outgoing ++ [⟨G.along path (exitOf G path inter),
          G.directionAlong path (exitOf G path inter)⟩] }
    ∧ (entryOf G path inter, exitOf G path inter)
        ∈ (trimStateFor G (pre ++ inter :: post) path).cuts
    ∧ ∀ pr ∈ windows2 (sentineledCuts G path (trimStateFor G (pre ++ inter :: post) path)),
        ¬ (max pr.1.2 (entryOf G path inter) < min pr.2.1 (exitOf G path inter)) := by
  have h2' : 2 ≤ (G.intersect path inter.shape.outlinePath).length := h2
  have hstep : ∀ st, processOneIntersection G path inter st =
      ({ inter with
          incoming := inter.incoming ++ [⟨G.along path (entryOf G path inter),
            G.directionAlong path (entryOf G path inter)⟩],
          outgoing := inter.outgoing ++ [⟨G.along path (exitOf G path inter),
            G.directionAlong path (exitOf G path inter)⟩] },
       { st with cuts := st.cuts ++ [(entryOf G path inter, exitOf G path inter)] }) := by
    intro st
    unfold processOneIntersection entryOf exitOf crossingsOf
    simp [h2']
  have hmem : (entryOf G path inter, exitOf G path inter)
      ∈ (trimStateFor G (pre ++ inter :: post) path).cuts := by
    show _ ∈ (mapTrim G path ⟨0, G.length path, []⟩ (pre ++ inter :: post)).2.cuts
    rw [mapTrim_append]
    show _ ∈ (mapTrim G path
      (processOneIntersection G path inter
        (mapTrim G path ⟨0, G.length path, []⟩ pre).2).2 post).2.cuts
    obtain ⟨ex, hex⟩ := mapTrim_cuts_extend G path post
      (processOneIntersection G path inter
        (mapTrim G path ⟨0, G.length path, []⟩ pre).2).2
    rw [hex, hstep]
    simp
  refine ⟨?_, hmem, ?_⟩
  · show ((mapTrim G path ⟨0, G.length path, []⟩ (pre ++ inter :: post)).1).get? pre.length = _
    rw [mapTrim_fst_get, get_append_length]
    rw [show ((some inter).map fun it =>
        (processOneIntersection G path it ⟨0, G.length path, []⟩).1)
      = some (processOneIntersection G path inter ⟨0, G.length path, []⟩).1 from rfl]
    rw [hstep]
  · intro pr hpr
    have ht := sortCuts_pairwise (trimStateFor G (pre ++ inter :: post) path).cuts hMono
    have hc : (entryOf G path inter, exitOf G path inter)
        ∈ sortCuts (trimStateFor G (pre ++ inter :: post) path).cuts :=
      (sortCuts_mem _ _).mpr hmem
    generalize hg : trimStateFor G (pre ++ inter :: post) path = stf at hpr ht hc
    have hsent : sentineledCuts G path stf
        = ((-1 : ℚ), stf.startTrim) :: sortCuts stf.cuts
          ++ [(stf.endTrim, G.length path + 1)] := rfl
    rw [hsent] at hpr
    obtain ⟨i, hu, hv⟩ := windows2_mem _ pr hpr
    exact gapCutDisjoint (sortCuts stf.cuts) ht
      ((-1 : ℚ), stf.startTrim) (stf.endTrim, G.length path + 1)
      i pr.1 pr.2 hu hv (entryOf G path inter, exitOf G path inter) hc

/-- Claim C1 witness: a concrete lane path crossing one concrete
intersection at distances 1 and 2. -/
theorem claim_c1_witness :
    (trimOnePath gwTrim [interA] pathI).1.get? 0 = some
      { interA with
        incoming := interA.incoming ++ [⟨gwTrim.along pathI (entryOf gwTrim pathI interA),
          gwTrim.directionAlong pathI (entryOf gwTrim pathI interA)⟩],
        outgoing := interA.outgoing ++ [⟨gwTrim.along pathI (exitOf gwTrim pathI interA),
          gwTrim.directionAlong pathI (exitOf gwTrim pathI interA)⟩] }
    ∧ (entryOf gwTrim pathI interA, exitOf gwTrim pathI interA)
        ∈ (trimStateFor gwTrim [interA] pathI).cuts
    ∧ ∀ pr ∈ windows2 (sentineledCuts gwTrim pathI (trimStateFor gwTrim [interA] pathI)),
        ¬ (max pr.1.2 (entryOf gwTrim pathI interA)
            < min pr.2.1 (exitOf gwTrim pathI interA)) :=
  claim_c1 gwTrim pathI [] [] interA (by decide) (by decide)

/-- Claim C1 counterexample: with nested cuts — intersection `A` crossed at
distances 1 and 10, intersection `B` at 2 and 3 — the emitted lane sub-path
over `(3, 20)` contains part of `A`'s recorded interval `(1, 10)`, so the
original claim's "no emitted lane prototype contains any part of the
sub-path between entry and exit" is false as stated. -/
theorem claim_c1_counterexample :
    2 ≤ (crossingsOf gceCuts pathI interA).length
    ∧ entryOf gceCuts pathI interA = 1
    ∧ exitOf gceCuts pathI interA = 10
    ∧ (trimOnePath gceCuts [interA, interB] pathI).2
        = [⟨[Segment.line (0, 0) (1, 0)]⟩, ⟨[Segment.line (3, 0) (20, 0)]⟩]
    ∧ ¬ (∀ pr ∈ windows2
          (sentineledCuts gceCuts pathI (trimStateFor gceCuts [interA, interB] pathI)),
          (gceCuts.subsection pathI pr.1.2 pr.2.1).isSome = true →
            ¬ (max pr.1.2 (entryOf gceCuts pathI interA)
                < min pr.2.1 (exitOf gceCuts pathI interA))) := by
  refine ⟨by decide, by decide, by decide, ?_, ?_⟩
  · decide
  · decide

/-- Claim C2, amended: for a lane path crossing an intersection's boundary
at exactly one point, if the path's start point lies inside the polygon then
one outgoing connector at the crossing distance is appended and
`start_trim` becomes `max(start_trim, crossing_distance)` (so the final
start trim is at least the crossing distance); and — provided every cut
recorded for this path ends at or after the crossing distance (the
hypothesis the original claim lacks) — every emitted lane sub-path begins at
or after the crossing distance.  Otherwise, if the path's end point lies
inside, one incoming connector is appended and `end_trim` becomes
`min(end_trim, crossing_distance)`, so the final end trim is at most the
crossing distance. -/
theorem claim_c2 (G : Geom) (path : CPath)
    (pre post : List IntersectionPrototype) (inter : IntersectionPrototype)
    (h1 : (crossingsOf G path inter).length = 1) :
    (G.contains inter.shape path.startPoint = true →
      (∀ st, processOneIntersection G path inter st =
          ({ inter with outgoing := inter.outgoing
              ++ [⟨G.along path (singleDistOf G path inter),
                  G.directionAlong path (singleDistOf G path inter)⟩] },
           { st with startTrim := max st.startTrim (singleDistOf G path inter) }))
      ∧ singleDistOf G path inter ≤ (trimStateFor G (pre ++ inter :: post) path).startTrim
      ∧ ((∀ c ∈ (trimStateFor G (pre ++ inter :: post) path).cuts,
            singleDistOf G path inter ≤ c.2) →
          ∀ pr ∈ windows2
            (sentineledCuts G path (trimStateFor G (pre ++ inter :: post) path)),
            singleDistOf G path inter ≤ pr.1.2))
    ∧ (G.contains inter.shape path.startPoint = false →
        G.contains inter.shape path.endPoint = true →
      (∀ st, processOneIntersection G path inter st =
          ({ inter with incoming := inter.incoming
              ++ [⟨G.along path (singleDistOf G path inter),
                  G.directionAlong path (singleDistOf G path inter)⟩] },
           { st with endTrim := min st.endTrim (singleDistOf G path inter) }))
      ∧ (trimStateFor G (pre ++ inter :: post) path).endTrim
          ≤ singleDistOf G path inter) := by
  have h1' : (G.intersect path inter.shape.outlinePath).length = 1 := h1
  have h2 : ¬ 2 ≤ (G.intersect path inter.shape.outlinePath).length := by omega
  constructor
  · intro hs
    have hstep : ∀ st, processOneIntersection G path inter st =
        ({ inter with outgoing := inter.outgoing
            ++ [⟨G.along path (singleDistOf G path inter),
                G.directionAlong path (singleDistOf G path inter)⟩] },
         { st with startTrim := max st.startTrim (singleDistOf G path inter) }) := by
      intro st
      unfold processOneIntersection singleDistOf crossingsOf
      simp [h2, h1', hs]
    have hb : singleDistOf G path inter
        ≤ (trimStateFor G (pre ++ inter :: post) path).startTrim := by
      show singleDistOf G path inter
        ≤ (mapTrim G path ⟨0, G.length path, []⟩ (pre ++ inter :: post)).2.startTrim
      rw [mapTrim_append]
      show singleDistOf G path inter ≤ (mapTrim G path
        (processOneIntersection G path inter
          (mapTrim G path ⟨0, G.length path, []⟩ pre).2).2 post).2.startTrim
      refine le_trans ?_ (mapTrim_start_mono G path post _)
      rw [hstep]
      exact le_max_right _ _
    refine ⟨hstep, hb, ?_⟩
    intro hcuts pr hpr
    generalize hg : trimStateFor G (pre ++ inter :: post) path = stf at hpr hcuts hb
    have hsent : sentineledCuts G path stf
        = ((-1 : ℚ), stf.startTrim) :: sortCuts stf.cuts
          ++ [(stf.endTrim, G.length path + 1)] := rfl
    rw [hsent] at hpr
    rcases windowsFstCases _ _ _ pr hpr with hf | hmem
    · rw [show pr.1.2 = stf.startTrim from by rw [hf]]
      exact hb
    · exact hcuts pr.1 ((sortCuts_mem _ _).mp hmem)
  · intro hs he
    have hstep : ∀ st, processOneIntersection G path inter st =
        ({ inter with incoming := inter.incoming
            ++ [⟨G.along path (singleDistOf G path inter),
                G.directionAlong path (singleDistOf G path inter)⟩] },
         { st with endTrim := min st.endTrim (singleDistOf G path inter) }) := by
      intro st
      unfold processOneIntersection singleDistOf crossingsOf
      simp [h2, h1', hs, he]
    refine ⟨hstep, ?_⟩
    show (mapTrim G path ⟨0, G.length path, []⟩ (pre ++ inter :: post)).2.endTrim
      ≤ singleDistOf G path inter
    rw [mapTrim_append]
    show (mapTrim G path
      (processOneIntersection G path inter
        (mapTrim G path ⟨0, G.length path, []⟩ pre).2).2 post).2.endTrim
      ≤ singleDistOf G path inter
    refine le_trans (mapTrim_end_anti G path post _) ?_
    rw [hstep]
    exact min_le_right _ _

/-- Claim C2 witness: a concrete lane path starting inside a concrete
intersection and crossing its boundary once at distance 5. -/
theorem claim_c2_witness :
    (gwStart.contains interB.shape pathI.startPoint = true →
      (∀ st, processOneIntersection gwStart pathI interB st =
          ({ interB with outgoing := interB.outgoing
              ++ [⟨gwStart.along pathI (singleDistOf gwStart pathI interB),
                  gwStart.directionAlong pathI (singleDistOf gwStart pathI interB)⟩] },
           { st with startTrim := max st.startTrim (singleDistOf gwStart pathI interB) }))
      ∧ singleDistOf gwStart pathI interB ≤ (trimStateFor gwStart [interB] pathI).startTrim
      ∧ ((∀ c ∈ (trimStateFor gwStart [interB] pathI).cuts,
            singleDistOf gwStart pathI interB ≤ c.2) →
          ∀ pr ∈ windows2 (sentineledCuts gwStart pathI (trimStateFor gwStart [interB] pathI)),
            singleDistOf gwStart pathI interB ≤ pr.1.2))
    ∧ (gwStart.contains interB.shape pathI.startPoint = false →
        gwStart.contains interB.shape pathI.endPoint = true →
      (∀ st, processOneIntersection gwStart pathI interB st =
          ({ interB with incoming := interB.incoming
              ++ [⟨gwStart.along pathI (singleDistOf gwStart pathI interB),
                  gwStart.directionAlong pathI (singleDistOf gwStart pathI interB)⟩] },
           { st with endTrim := min st.endTrim (singleDistOf gwStart pathI interB) }))
      ∧ (trimStateFor gwStart [interB] pathI).endTrim
          ≤ singleDistOf gwStart pathI interB) :=
  claim_c2 gwStart pathI [] [] interB (by decide)

/-- Claim C2 counterexample: the lane path starts inside `B` (single
crossing at distance 5) while a second intersection `A` records the cut
`(2, 3)`; the surviving sub-path over `(3, 20)` begins at 3, before the
crossing distance 5, so the original claim's "no emitted lane prototype for
that path begins before that crossing distance" is false as stated. -/
theorem claim_c2_counterexample :
    (crossingsOf gceStart pathI interB).length = 1
    ∧ gceStart.contains interB.shape pathI.startPoint = true
    ∧ singleDistOf gceStart pathI interB = 5
    ∧ (trimOnePath gceStart [interA, interB] pathI).2
        = [⟨[Segment.line (3, 0) (20, 0)]⟩]
    ∧ ¬ (∀ pr ∈ windows2
          (sentineledCuts gceStart pathI (trimStateFor gceStart [interA, interB] pathI)),
          (gceStart.subsection pathI pr.1.2 pr.2.1).isSome = true →
            singleDistOf gceStart pathI interB ≤ pr.1.2) := by
  refine ⟨by decide, by decide, by decide, by decide, by decide⟩

/-- Claim C3: after all intersections are processed, the recorded cuts are
sorted ascending by entry distance, sentinels `(-1, start_trim)` and
`(end_trim, path_length + 1)` are added, and every consecutive pair's gap
`(previous.exit, next.entry)` whose extraction succeeds becomes exactly one
surviving sub-path (first conjunct: the emitted list equals the
specification-side reconstruction; second conjunct: the sorted cut list is
indeed sorted by entry).  When no single-crossing trim occurred,
`start_trim` keeps its default 0 and `end_trim` its default `path_length`
(third conjunct). -/
theorem claim_c3 (G : Geom) (inters : List IntersectionPrototype) (path : CPath) :
    (trimOnePath G inters path).2 = specTrimLane G path (trimStateFor G inters path)
    ∧ List.Sorted (fun a b : Cut => a.1 ≤ b.1) (sortCuts (trimStateFor G inters path).cuts)
    ∧ ((∀ inter ∈ inters, (crossingsOf G path inter).length = 1 →
          G.contains inter.shape path.startPoint = false
            ∧ G.contains inter.shape path.endPoint = false) →
        (trimStateFor G inters path).startTrim = 0
          ∧ (trimStateFor G inters path).endTrim = G.length path) := by
  refine ⟨rfl, sortCuts_sorted _, ?_⟩
  intro hNo
  exact mapTrim_trims_id G path inters ⟨0, G.length path, []⟩ hNo

/-- Claim C3 witness: the trivial concrete run with no intersections, where
both trim defaults survive. -/
theorem claim_c3_witness :
    (trimOnePath gwEmpty [] pathI).2 = specTrimLane gwEmpty pathI (trimStateFor gwEmpty [] pathI)
    ∧ List.Sorted (fun a b : Cut => a.1 ≤ b.1) (sortCuts (trimStateFor gwEmpty [] pathI).cuts)
    ∧ ((trimStateFor gwEmpty [] pathI).startTrim = 0
        ∧ (trimStateFor gwEmpty [] pathI).endTrim = gwEmpty.length pathI) := by
  have h := claim_c3 gwEmpty [] pathI
  exact ⟨h.1, h.2.1, h.2.2 (by simp)⟩

/-- Claim C7, amended: for a road gesture with exactly 2 distinct points,
the Path Smoother produces a smoothed path that is exactly one straight
line from the first point to the second, with no arc segments.  The
hypotheses pin down the spec-modelled library behaviour: an arc whose
target equals its start point is degenerate and skipped, and the norm is
zero at zero and nonnegative. -/
theorem claim_c7 (G : Geom)
    (hArc : ∀ (p : P2) (d : V2), G.arcWithDirection p d p = none)
    (hZero : G.norm (0, 0) = 0)
    (hNonneg : ∀ v : V2, 0 ≤ G.norm v)
    (p0 p1 : P2) (hne : p0 ≠ p1) :
    smoothGesture G [p0, p1] = some ⟨[Segment.line p0 p1]⟩ := by
  have e0 : psub p0 p0 = (0, 0) := by simp [psub]
  have e1 : psub p1 p1 = (0, 0) := by simp [psub]
  have edF : min (G.norm (psub p0 p0)) (G.norm (psub p0 (midpt p0 p1))) = 0 := by
    rw [e0, hZero]
    exact min_eq_left (hNonneg _)
  have edS : min (G.norm (psub p1 (midpt p0 p1))) (G.norm (psub p1 p1)) = 0 := by
    rw [e1, hZero]
    exact min_eq_right (hNonneg _)
  have eesd : endStartDirections G [p0, p1] = [(p0, p1, G.normalize (psub p1 p0))] := by
    show (padd p0 (smulV (min (G.norm (psub p0 p0)) (G.norm (psub p0 (midpt p0 p1))))
        (G.normalize (psub p1 p0))),
      psubv p1 (smulV (min (G.norm (psub p1 (midpt p0 p1))) (G.norm (psub p1 p1)))
        (G.normalize (psub p1 p0))),
      G.normalize (psub p1 p0)) :: esdAux G (midpt p0 p1) [p1] = _
    rw [edF, edS]
    simp [esdAux, padd, psubv, smulV]
  unfold smoothGesture
  rw [eesd]
  rw [show ([p0, p1] : List P2).getD 0 zeroP = p0 from rfl,
      show ([p0, p1] : List P2).getD 1 zeroP = p1 from rfl]
  simp only [buildSegments]
  rw [hArc]
  simp [lineOpt, hne, CPath.new, segsContinuous]

/-- Claim C7 witness: a concrete 2-point gesture with distinct points. -/
theorem claim_c7_witness :
    smoothGesture gwEmpty [(0, 0), (1, 0)] = some ⟨[Segment.line (0, 0) (1, 0)]⟩ :=
  claim_c7 gwEmpty (fun p d => by simp [gwEmpty, simpleGeom])
    (by norm_num [gwEmpty, simpleGeom])
    (fun v => add_nonneg (abs_nonneg _) (abs_nonneg _))
    (0, 0) (1, 0) (by decide)

/-- Claim C7 counterexample: a gesture of exactly 2 coincident points
produces no smoothed path at all (the zero-length line and the degenerate
arc are both skipped and path construction fails on zero segments), so the
original claim — which asserts a single straight-line result for every
2-point road gesture — is false as stated. -/
theorem claim_c7_counterexample :
    smoothGesture gwEmpty [(0, 0), (0, 0)] = none
    ∧ smoothGesture gwEmpty [(0, 0), (0, 0)] ≠ some ⟨[Segment.line (0, 0) (0, 0)]⟩ := by
  have h : smoothGesture gwEmpty [(0, 0), (0, 0)] = none := by
    norm_num [smoothGesture, endStartDirections, esdAux, buildSegments, CPath.new,
      lineOpt, psub, midpt, padd, psubv, smulV, segsContinuous, gwEmpty, simpleGeom]
  refine ⟨h, by rw [h]; exact fun hcon => Option.noConfusion hcon⟩

/-! ### Indexed characterisation of the smoother's anchor points -/

theorem midpt_comm (a b : P2) : midpt a b = midpt b a := by
  simp [midpt, add_comm]

theorem get_eq_getD {α : Type} :
    ∀ (l : List α) (n : ℕ) (d : α), n < l.length → l.get? n = some (l.getD n d)
  | _ :: _, 0, _, _ => rfl
  | _ :: l, n + 1, d, h => get_eq_getD l n d (Nat.lt_of_succ_lt_succ h)
  | [], _, _, h => absurd h (by simp)

theorem esdAux_getD (G : Geom) :
    ∀ (pts : List P2) (prevC : P2) (i : ℕ), i + 1 < pts.length →
      (esdAux G prevC pts).get? i = some (esdEntry G prevC pts i)
  | [], _, _, h => by simp at h
  | [_], _, i, h => by
    simp only [List.length_singleton] at h
    omega
  | a :: b :: rest, prevC, 0, _ => by
    cases rest with
    | nil => rfl
    | cons n rest' => rfl
  | a :: b :: rest, prevC, i + 1, h => by
    show (esdAux G (midpt a b) (b :: rest)).get? i = some (esdEntry G prevC (a :: b :: rest) (i + 1))
    rw [esdAux_getD G (b :: rest) (midpt a b) i (by
      simp only [List.length_cons] at h ⊢
      omega)]
    rcases i with _ | k
    · rfl
    · rfl

/-- Claim C8: for segment `i` of a gesture, the smoother's anchor point
`end` lies along the segment direction from the first corner at distance
`min(dist(first, previous center or first corner), dist(first, this
center))`, and `start` lies backward from the second corner at the
symmetric minimum (first conjunct, via `esdEntry`); both minimum distances
are at most half the segment's own length, so neither anchor passes the
midpoint (second and third conjuncts); and each is also at most half the
length of the other adjacent segment when that segment exists (fourth and
fifth conjuncts), so the rounding arc at a corner never extends beyond half
the length of either adjacent straight segment.  `hHalf` and `hSym` are the
norm laws of the external geometry library that the argument uses. -/
theorem claim_c8 (G : Geom)
    (hHalf : ∀ a b : P2, G.norm (psub a (midpt a b)) = G.norm (psub b a) / 2)
    (hSym : ∀ a b : P2, G.norm (psub a b) = G.norm (psub b a))
    (pts : List P2) (i : ℕ) (h : i + 1 < pts.length) :
    (endStartDirections G pts).get? i = some (esdEntry G (pts.headD zeroP) pts i)
    ∧ min (G.norm (psub (pts.getD i zeroP) (prevCenterAt (pts.headD zeroP) pts i)))
          (G.norm (psub (pts.getD i zeroP) (midpt (pts.getD i zeroP) (pts.getD (i + 1) zeroP))))
        ≤ G.norm (psub (pts.getD (i + 1) zeroP) (pts.getD i zeroP)) / 2
    ∧ min (G.norm (psub (pts.getD (i + 1) zeroP)
            (midpt (pts.getD i zeroP) (pts.getD (i + 1) zeroP))))
          (G.norm (psub (pts.getD (i + 1) zeroP) (nextCenterAt pts i)))
        ≤ G.norm (psub (pts.getD (i + 1) zeroP) (pts.getD i zeroP)) / 2
    ∧ (1 ≤ i →
        min (G.norm (psub (pts.getD i zeroP) (prevCenterAt (pts.headD zeroP) pts i)))
            (G.norm (psub (pts.getD i zeroP)
              (midpt (pts.getD i zeroP) (pts.getD (i + 1) zeroP))))
          ≤ G.norm (psub (pts.getD i zeroP) (pts.getD (i - 1) zeroP)) / 2)
    ∧ (i + 2 < pts.length →
        min (G.norm (psub (pts.getD (i + 1) zeroP)
              (midpt (pts.getD i zeroP) (pts.getD (i + 1) zeroP))))
            (G.norm (psub (pts.getD (i + 1) zeroP) (nextCenterAt pts i)))
          ≤ G.norm (psub (pts.getD (i + 2) zeroP) (pts.getD (i + 1) zeroP)) / 2) := by
  refine ⟨esdAux_getD G pts (pts.headD zeroP) i h, ?_, ?_, ?_, ?_⟩
  · refine le_trans (min_le_right _ _) ?_
    rw [hHalf]
  · refine le_trans (min_le_left _ _) ?_
    rw [midpt_comm, hHalf, hSym]
  · intro hi
    refine le_trans (min_le_left _ _) ?_
    have hp : prevCenterAt (pts.headD zeroP) pts i
        = midpt (pts.getD (i - 1) zeroP) (pts.getD i zeroP) := by
      unfold prevCenterAt
      rw [if_neg (by omega)]
    rw [hp, midpt_comm, hHalf, hSym]
  · intro hb
    refine le_trans (min_le_right _ _) ?_
    have hn : nextCenterAt pts i = midpt (pts.getD (i + 1) zeroP) (pts.getD (i + 2) zeroP) := by
      unfold nextCenterAt
      rw [get_eq_getD pts (i + 2) zeroP hb]
    rw [hn, hHalf]

/-- Claim C8 witness: the middle segment of a concrete 3-point L-shaped
gesture under the taxicab norm, which satisfies both norm laws. -/
theorem claim_c8_witness :
    (endStartDirections gwEmpty [(0, 0), (4, 0), (4, 8)]).get? 1
        = some (esdEntry gwEmpty (([(0, 0), (4, 0), (4, 8)] : List P2).headD zeroP)
            [(0, 0), (4, 0), (4, 8)] 1)
    ∧ min (gwEmpty.norm (psub (([(0, 0), (4, 0), (4, 8)] : List P2).getD 1 zeroP)
            (prevCenterAt (([(0, 0), (4, 0), (4, 8)] : List P2).headD zeroP)
              [(0, 0), (4, 0), (4, 8)] 1)))
          (gwEmpty.norm (psub (([(0, 0), (4, 0), (4, 8)] : List P2).getD 1 zeroP)
            (midpt (([(0, 0), (4, 0), (4, 8)] : List P2).getD 1 zeroP)
              (([(0, 0), (4, 0), (4, 8)] : List P2).getD 2 zeroP))))
        ≤ gwEmpty.norm (psub (([(0, 0), (4, 0), (4, 8)] : List P2).getD 2 zeroP)
            (([(0, 0), (4, 0), (4, 8)] : List P2).getD 1 zeroP)) / 2
    ∧ min (gwEmpty.norm (psub (([(0, 0), (4, 0), (4, 8)] : List P2).getD 2 zeroP)
            (midpt (([(0, 0), (4, 0), (4, 8)] : List P2).getD 1 zeroP)
              (([(0, 0), (4, 0), (4, 8)] : List P2).getD 2 zeroP))))
          (gwEmpty.norm (psub (([(0, 0), (4, 0), (4, 8)] : List P2).getD 2 zeroP)
            (nextCenterAt [(0, 0), (4, 0), (4, 8)] 1)))
        ≤ gwEmpty.norm (psub (([(0, 0), (4, 0), (4, 8)] : List P2).getD 2 zeroP)
            (([(0, 0), (4, 0), (4, 8)] : List P2).getD 1 zeroP)) / 2
    ∧ (1 ≤ 1 →
        min (gwEmpty.norm (psub (([(0, 0), (4, 0), (4, 8)] : List P2).getD 1 zeroP)
              (prevCenterAt (([(0, 0), (4, 0), (4, 8)] : List P2).headD zeroP)
                [(0, 0), (4, 0), (4, 8)] 1)))
            (gwEmpty.norm (psub (([(0, 0), (4, 0), (4, 8)] : List P2).getD 1 zeroP)
              (midpt (([(0, 0), (4, 0), (4, 8)] : List P2).getD 1 zeroP)
                (([(0, 0), (4, 0), (4, 8)] : List P2).getD 2 zeroP))))
          ≤ gwEmpty.norm (psub (([(0, 0), (4, 0), (4, 8)] : List P2).getD 1 zeroP)
              (([(0, 0), (4, 0), (4, 8)] : List P2).getD 0 zeroP)) / 2)
    ∧ (1 + 2 < ([(0, 0), (4, 0), (4, 8)] : List P2).length →
        min (gwEmpty.norm (psub (([(0, 0), (4, 0), (4, 8)] : List P2).getD 2 zeroP)
              (midpt (([(0, 0), (4, 0), (4, 8)] : List P2).getD 1 zeroP)
                (([(0, 0), (4, 0), (4, 8)] : List P2).getD 2 zeroP))))
            (gwEmpty.norm (psub (([(0, 0), (4, 0), (4, 8)] : List P2).getD 2 zeroP)
              (nextCenterAt [(0, 0), (4, 0), (4, 8)] 1)))
          ≤ gwEmpty.norm (psub (([(0, 0), (4, 0), (4, 8)] : List P2).getD 3 zeroP)
              (([(0, 0), (4, 0), (4, 8)] : List P2).getD 2 zeroP)) / 2) :=
  claim_c8 gwEmpty
    (by
      intro a b
      show |a.1 - (a.1 + b.1) / 2| + |a.2 - (a.2 + b.2) / 2|
        = (|b.1 - a.1| + |b.2 - a.2|) / 2
      have k : ∀ x y : ℚ, |x - (x + y) / 2| = |y - x| / 2 := by
        intro x y
        rw [show x - (x + y) / 2 = (x - y) / 2 by ring, abs_div, abs_sub_comm x y]
        norm_num
      rw [k a.1 b.1, k a.2 b.2]
      ring)
    (by
      intro a b
      show |a.1 - b.1| + |a.2 - b.2| = |b.1 - a.1| + |b.2 - a.2|
      rw [abs_sub_comm a.1 b.1, abs_sub_comm a.2 b.2])
    [(0, 0), (4, 0), (4, 8)] 1 (by decide)
